import Mathlib

/-!
Verification of the format-detection and recursive-extraction orchestrator of
scripts/extract_utils.py (class ROMExtractor).

The Python source is shallowly embedded as follows:

* A filesystem is a finite association list from paths (lists of segments) to
  file contents.  Directory entries are not modelled separately: a directory
  exists exactly when some file lies below it.  Directory/file name collisions
  (a file `a` and a file `a/b` coexisting) are representable in the model but
  never arise in the runs studied here.
* File contents are modelled structurally (`Content`): the bit-level decoders
  (zipfile, tarfile, lz4.frame, brotli, simg2img) are out-of-scope external
  collaborators per the spec, so a zip file is represented by its entry list,
  a brotli stream by the content it decompresses to, and so on.  Each
  container constructor that has no fixed on-disk magic carries its leading
  bytes explicitly, so that format detection (which reads the first 8 bytes)
  is faithful.  `rawC` is an opaque byte blob that none of the decoder
  libraries accepts.
* Python exceptions become an error type (`ExtractErr`); `extract` returns
  the filesystem state reached together with the outcome, because on-disk
  side effects survive an exception in the real program.
* The recursive-object-reinstantiation pattern (each nested extraction
  constructs a fresh `ROMExtractor`) is a recursive call; recursion is made
  total with an explicit fuel parameter.  `none` means the computation did
  not finish within the given fuel; a run that returns `none` for every fuel
  corresponds to a non-terminating execution of the source.
* The outcome of the unchecked `sudo mount` subprocess in `_extract_ext4` is
  environment-dependent; it is passed in as the boolean `mountOk`.
-/

/-! ## Paths and string helpers (pathlib / str methods) -/

abbrev Byte := Nat
abbrev FilePath' := List String

/-- Model of `str.lower()` (ASCII, which covers all names used here). -/
def strLower (s : String) : String := String.mk (s.toList.map Char.toLower)

/-- Model of `str.endswith(suf)`. -/
def strEndsWith (s suf : String) : Bool :=
  decide (s.toList.drop (s.toList.length - suf.toList.length) = suf.toList)

/-- Position of the last '.' in a list of characters, if any. -/
def lastDotPos : List Char → Option Nat
  | [] => none
  | c :: rest =>
    match lastDotPos rest with
    | some i => some (i + 1)
    | none => if c = '.' then some 0 else none

/-- Model of `pathlib.PurePath.suffix` on a file name: the extension from the
last dot, but only when that dot is neither the first nor the last character
(so `.bashrc` and `file.` have no suffix). -/
def pySuffix (name : String) : String :=
  let cs := name.toList
  match lastDotPos cs with
  | some i => if 0 < i ∧ i < cs.length - 1 then String.mk (cs.drop i) else ""
  | none => ""

/-- Model of `pathlib.PurePath.stem`: the name with `pySuffix` removed. -/
def pyStem (name : String) : String :=
  let cs := name.toList
  match lastDotPos cs with
  | some i => if 0 < i ∧ i < cs.length - 1 then String.mk (cs.take i) else name
  | none => name

/-- Model of `path.with_suffix('')`: drop the suffix of the final segment
(`x.tar.md5` becomes `x.tar`; a name without a suffix is unchanged). -/
def withSuffixEmpty (p : FilePath') : FilePath' :=
  match p with
  | [] => []
  | _ => p.dropLast ++ [pyStem (p.getLastD "")]

/-- Final path segment, i.e. `pathlib.PurePath.name`. -/
def lastSeg (p : FilePath') : String := p.getLastD ""

/-- Split an archive entry name on '/' into path segments (what
`output_dir / entry_name` does to a name containing slashes). -/
def splitSlashAux (cur : List Char) : List Char → List String
  | [] => [String.mk cur.reverse]
  | c :: rest =>
    if c = '/' then String.mk cur.reverse :: splitSlashAux [] rest
    else splitSlashAux (c :: cur) rest

def splitSlash (s : String) : FilePath' := splitSlashAux [] s.toList

/-- Join relative path segments with '/' (how `str(rel_path)` prints). -/
def pathToString : FilePath' → String
  | [] => ""
  | [s] => s
  | s :: rest => s ++ "/" ++ pathToString rest

/-! ## Data model -/

/-- The extraction manifest dict built by `_scan_output`. -/
structure Manifest where
  format : String
  output_dir : FilePath'
  files : List String
  directories : List String
  build_props : List String
  partition_images : List String
  deriving DecidableEq, Repr

/-- Structural model of file contents.  Constructors whose on-disk encodings
have no fixed magic carry their leading bytes (`head`) explicitly. -/
inductive Content where
  /-- A zip archive with its entry list (entry names may contain '/'). -/
  | zipC (entries : List (String × Content))
  /-- A tar archive; `head` is the first bytes of the stream (a tar stream
  begins with the name field of its first member, there is no leading magic). -/
  | tarC (head : List Byte) (entries : List (String × Content))
  /-- A brotli stream decompressing to `inner`; raw brotli has no magic, so
  the leading bytes are carried explicitly. -/
  | brC (head : List Byte) (inner : Content)
  /-- An lz4 frame decompressing to `inner` (fixed frame magic 04 22 4D 18). -/
  | lz4C (inner : Content)
  /-- An Android sparse image; `head` is its leading bytes; `partFiles` are the
  files of the contained filesystem, as copied out after loop-mounting. -/
  | sparseC (head : List Byte) (partFiles : List (String × Content))
  /-- The raw ext4 image produced from a sparse image by `simg2img`. -/
  | ext4C (partFiles : List (String × Content))
  /-- The `extraction_metadata.json` file written by `_scan_output`. -/
  | jsonC (m : Manifest)
  /-- An opaque blob that none of the decoder libraries accepts. -/
  | rawC (bytes : List Byte)

/-- Leading bytes of a file, per constructor.  Fixed-magic formats get their
standard headers; `head`-carrying constructors are fully general. -/
def contentHead : Content → List Byte
  | .zipC _ => [0x50, 0x4b, 0x03, 0x04, 0x14, 0x00, 0x00, 0x00]
  | .tarC h _ => h
  | .brC h _ => h
  | .lz4C _ => [0x04, 0x22, 0x4d, 0x18, 0x64, 0x40, 0xa7, 0x00]
  | .sparseC h _ => h
  | .ext4C _ => [0x00, 0x00, 0x00, 0x00, 0x00, 0x00, 0x00, 0x00]
  | .jsonC _ => [0x7b, 0x0a, 0x20, 0x20, 0x22, 0x66, 0x6f, 0x72]
  | .rawC bs => bs

/-- Model of `ROMExtractor._get_magic_bytes` (lines 64-67): `open(rom); read(8)`. -/
def get_magic_bytes (c : Content) : List Byte := (contentHead c).take 8

/-! ## Classifier: `ROMExtractor.detect_format` (lines 34-62) -/

def zipMagic : List Byte := [0x50, 0x4b, 0x03, 0x04]
def brMagic : List Byte := [0x28, 0xb5, 0x2f, 0xfd]
def lz4Magic : List Byte := [0x04, 0x22, 0x4d, 0x18]
def sparseMagic : List Byte := [0x30, 0x30, 0x30, 0x30, 0x30, 0x30, 0x30]

/-- The `SUPPORTED_FORMATS` class attribute (lines 19-27), in dict order. -/
def SUPPORTED_FORMATS : List (String × List String) :=
  [("zip", [".zip", ".apk", ".jar"]),
   ("tar", [".tar", ".tar.gz", ".tgz", ".tar.bz2", ".tbz2", ".tar.xz", ".txz"]),
   ("lz4", [".lz4", ".tar.lz4"]),
   ("br", [".br", ".tar.br"]),
   ("sparse", [".img", ".sparse"]),
   ("payload", ["payload.bin"]),
   ("md5", [".md5"])]

/-- The extension-table fallback loop of `detect_format` (lines 58-60):
first format whose extension list contains `ext` or has a member that
`name` ends with. -/
def extTableLookup (ext name : String) : List (String × List String) → Option String
  | [] => none
  | (fmt, exts) :: rest =>
    if exts.contains ext || exts.any (fun e => strEndsWith name e) then some fmt
    else extTableLookup ext name rest

/-- Model of `ROMExtractor.detect_format`: `magic` is the 8-byte read returned
by `_get_magic_bytes`, `filename` is `rom_path.name`. -/
def detect_format (magic : List Byte) (filename : String) : String :=
  let ext := strLower (pySuffix filename)
  let name := strLower filename
  if magic.take 4 = zipMagic then "zip"
  else if magic.take 4 = brMagic then "br"
  else if magic.take 4 = lz4Magic then "lz4"
  else if magic.take 7 = sparseMagic then "sparse"
  else if name = "payload.bin" then "payload"
  else if ext = ".tar" ∨ ext = ".gz" ∨ ext = ".bz2" ∨ ext = ".xz" then "tar"
  else if ext = ".md5" then "md5"
  else
    match extTableLookup ext name SUPPORTED_FORMATS with
    | some fmt => fmt
    | none => "unknown"

example : detect_format (zipMagic ++ [9, 9, 9, 9]) "firmware.weird" = "zip" := by decide
example : detect_format [] "update.tar.br" = "br" := by decide
example : detect_format [] "x.tar.md5" = "md5" := by decide
example : detect_format [] ".md5" = "md5" := by decide
example : detect_format [] "payload.bin" = "payload" := by decide
example : detect_format [] "mystery.bin" = "unknown" := by decide
example : pyStem "x.tar.br" = "x.tar" := by decide
example : pySuffix "x.tar" = ".tar" := by decide
example : withSuffixEmpty [".md5"] = [".md5"] := by decide

/-! ## Filesystem model -/

/-- A filesystem: association list from absolute paths to file contents. -/
abbrev FS := List (FilePath' × Content)

def fsLookup (fs : FS) (p : FilePath') : Option Content :=
  match fs with
  | [] => none
  | (q, c) :: rest => if q = p then some c else fsLookup rest p

/-- Whether a file exists (`path.exists()`). -/
def fsHas (fs : FS) (p : FilePath') : Bool := (fsLookup fs p).isSome

/-- Write (create or overwrite) a file. -/
def fsWrite (fs : FS) (p : FilePath') (c : Content) : FS :=
  match fs with
  | [] => [(p, c)]
  | (q, c') :: rest => if q = p then (p, c) :: rest else (q, c') :: fsWrite rest p c

/-- Delete a file (`path.unlink()` once existence is known). -/
def fsDelete (fs : FS) (p : FilePath') : FS :=
  match fs with
  | [] => []
  | (q, c) :: rest => if q = p then fsDelete rest p else (q, c) :: fsDelete rest p

/-- If `p = dir ++ rest` with `rest` nonempty, return `rest`. -/
def relUnder (dir p : FilePath') : Option FilePath' :=
  match dir, p with
  | [], rest => if rest = [] then none else some rest
  | d :: ds, q :: qs => if d = q then relUnder ds qs else none
  | _ :: _, [] => none

/-- The file paths below `outDir`, relative to it, in filesystem order
(models the file part of `os.walk(output_dir)`). -/
def walkFiles (fs : FS) (outDir : FilePath') : List FilePath' :=
  fs.filterMap (fun e => relUnder outDir e.1)

/-- The proper ancestor directories of a relative file path
(for `rel = [a, b, c]` these are `[a]` and `[a, b]`). -/
def properAncestors : FilePath' → List FilePath'
  | [] => []
  | [_] => []
  | x :: rest => [x] :: (properAncestors rest).map (fun q => x :: q)

/-! ## Errors and results -/

/-- The Python exceptions the extractor can raise. -/
inductive ExtractErr where
  /-- `ValueError(f"Unsupported format: {fmt}")` from `extract`. -/
  | valueError (fmt : String)
  /-- `FileNotFoundError`: missing md5 base file (line 244), missing rom file
  at open, or `unlink` on a missing path. -/
  | fileNotFoundError
  /-- A decoder library rejected the content (`zipfile.BadZipFile`,
  `tarfile.ReadError`, lz4/brotli decompression errors). -/
  | badArchive
  /-- `RuntimeError(f"simg2img failed: ...")` (line 194). -/
  | runtimeError
  deriving DecidableEq, Repr

/-- The dict returned by an extractor method: either the `_scan_output`
manifest, or the `{'format': fmt, 'delegated': True}` dict of
`_extract_payload` (its presence is the delegation flag). -/
inductive ExtractResult where
  | manifest (m : Manifest)
  | delegated (format : String)
  deriving DecidableEq, Repr

/-! ## Manifest builder: `ROMExtractor._scan_output` (lines 246-278) -/

/-- One iteration of the `for f in files` loop of `_scan_output`: append the
relative path to `files`; if the basename is `build.prop` also append it to
`build_props`, else if it ends in `.img` also append it to
`partition_images`. -/
def scanStep (acc : List String × List String × List String) (rel : FilePath') :
    List String × List String × List String :=
  let rp := pathToString rel
  let f := lastSeg rel
  if f = "build.prop" then (acc.1 ++ [rp], acc.2.1 ++ [rp], acc.2.2)
  else if strEndsWith f ".img" then (acc.1 ++ [rp], acc.2.1, acc.2.2 ++ [rp])
  else (acc.1 ++ [rp], acc.2.1, acc.2.2)

/-- Model of `_scan_output`: walk the output tree, build the manifest, then
write it to `output_dir/extraction_metadata.json` and return it. -/
def scan_output (fs : FS) (outDir : FilePath') (fmt : String) : Manifest × FS :=
  let rels := walkFiles fs outDir
  let acc := rels.foldl scanStep ([], [], [])
  let dirs := ((rels.map properAncestors).flatten.dedup).map pathToString
  let m : Manifest :=
    { format := fmt, output_dir := outDir, files := acc.1,
      directories := dirs, build_props := acc.2.1, partition_images := acc.2.2 }
  (m, fsWrite fs (outDir ++ ["extraction_metadata.json"]) (.jsonC m))

/-! ## `_extract_ext4` (lines 203-227) and non-recursive extractor pieces -/

/-- Model of `zipfile.ZipFile.extractall` / `tarfile.TarFile.extractall` /
the copy loop of `_extract_ext4`: write every entry below `outDir`. -/
def writeEntries (fs : FS) (outDir : FilePath') (entries : List (String × Content)) : FS :=
  entries.foldl (fun acc e => fsWrite acc (outDir ++ splitSlash e.1) e.2) fs

/-- Model of `_extract_ext4`: the `sudo mount` subprocess is run with
`check=False`, so its outcome `mountOk` is never inspected; on success the
mounted image's items are copied below `outDir`, on failure the loop over the
(empty) mount point copies nothing, and either way no error is raised.  The
`umount`/`rmdir` cleanup leaves no tracked file behind. -/
def extract_ext4 (mountOk : Bool) (fs : FS) (outDir : FilePath')
    (partFiles : List (String × Content)) : FS :=
  if mountOk then writeEntries fs outDir partFiles else fs

/-! ## The orchestrator: `ROMExtractor.extract` (lines 69-90) with the
recursive extractor methods inlined.  Fuel makes the recursion total; `none`
means the run did not finish within the given fuel. -/

mutual

/-- Model of `ROMExtractor(rom_path, output_dir).extract()`.  Dispatches on
`detect_format`; each branch inlines the corresponding `_extract_*` method.
Returns the filesystem after the call together with the outcome (result or
raised exception), since on-disk effects survive an exception. -/
def extract (mountOk : Bool) : Nat → FS → FilePath' → FilePath' →
    Option (FS × Except ExtractErr ExtractResult)
  | 0, _, _, _ => none
  | Nat.succ n, fs, romPath, outDir =>
    match fsLookup fs romPath with
    | none => some (fs, .error .fileNotFoundError)
    | some c =>
      let fmt := detect_format (get_magic_bytes c) (lastSeg romPath)
      if fmt = "zip" then
        -- _extract_zip (lines 92-114)
        match c with
        | .zipC entries =>
          let nested := (entries.map (fun e => e.1)).filter (fun nm =>
            strEndsWith nm ".zip" || strEndsWith nm ".tar" ||
            strEndsWith nm ".md5" || strEndsWith nm ".lz4")
          let fs1 := writeEntries fs outDir entries
          match extract_zip_nested mountOk n fs1 outDir nested with
          | none => none
          | some (fs2, .error e) => some (fs2, .error e)
          | some (fs2, .ok _) =>
            let sc := scan_output fs2 outDir fmt
            some (sc.2, .ok (.manifest sc.1))
        | _ => some (fs, .error .badArchive)
      else if fmt = "tar" then
        -- _extract_tar (lines 116-126)
        match c with
        | .tarC _ entries =>
          let fs1 := writeEntries fs outDir entries
          let sc := scan_output fs1 outDir fmt
          some (sc.2, .ok (.manifest sc.1))
        | _ => some (fs, .error .badArchive)
      else if fmt = "lz4" then
        -- _extract_lz4 (lines 128-152)
        match c with
        | .lz4C inner =>
          let outFile := outDir ++ [pyStem (lastSeg romPath)]
          let fs1 := fsWrite fs outFile inner
          if pySuffix (lastSeg outFile) = ".tar" then
            match extract mountOk n fs1 outFile outDir with
            | none => none
            | some (fs2, .error e) => some (fs2, .error e)
            | some (fs2, .ok _) =>
              if fsHas fs2 outFile then
                let fs3 := fsDelete fs2 outFile
                let sc := scan_output fs3 outDir fmt
                some (sc.2, .ok (.manifest sc.1))
              else some (fs2, .error .fileNotFoundError)
          else
            let sc := scan_output fs1 outDir fmt
            some (sc.2, .ok (.manifest sc.1))
        | _ => some (fs, .error .badArchive)
      else if fmt = "br" then
        -- _extract_brotli (lines 154-178)
        match c with
        | .brC _ inner =>
          let outFile := outDir ++ [pyStem (lastSeg romPath)]
          let fs1 := fsWrite fs outFile inner
          if pySuffix (lastSeg outFile) = ".tar" ∨ pySuffix (lastSeg outFile) = ".zip" ∨
              pySuffix (lastSeg outFile) = ".lz4" then
            match extract mountOk n fs1 outFile outDir with
            | none => none
            | some (fs2, .error e) => some (fs2, .error e)
            | some (fs2, .ok _) =>
              if fsHas fs2 outFile then
                let fs3 := fsDelete fs2 outFile
                let sc := scan_output fs3 outDir fmt
                some (sc.2, .ok (.manifest sc.1))
              else some (fs2, .error .fileNotFoundError)
          else
            let sc := scan_output fs1 outDir fmt
            some (sc.2, .ok (.manifest sc.1))
        | _ => some (fs, .error .badArchive)
      else if fmt = "sparse" then
        -- _extract_sparse (lines 180-201); simg2img succeeds exactly on
        -- sparse images, raising RuntimeError otherwise
        match c with
        | .sparseC _ partFiles =>
          let outImg := outDir ++ [pyStem (lastSeg romPath) ++ ".raw.img"]
          let fs1 := fsWrite fs outImg (.ext4C partFiles)
          let fs2 := extract_ext4 mountOk fs1 outDir partFiles
          let sc := scan_output fs2 outDir fmt
          some (sc.2, .ok (.manifest sc.1))
        | _ => some (fs, .error .runtimeError)
      else if fmt = "payload" then
        -- _extract_payload (lines 229-234): delegated, no local output
        some (fs, .ok (.delegated fmt))
      else if fmt = "md5" then
        -- _extract_md5 (lines 236-244)
        let baseFile := withSuffixEmpty romPath
        if fsHas fs baseFile then extract mountOk n fs baseFile outDir
        else some (fs, .error .fileNotFoundError)
      else
        some (fs, .error (.valueError fmt))

/-- The `for nest in nested` loop of `_extract_zip` (lines 106-112): for each
nested candidate that exists, recursively extract it into
`output_dir/nested`, then unlink it; an exception propagates immediately. -/
def extract_zip_nested (mountOk : Bool) : Nat → FS → FilePath' → List String →
    Option (FS × Except ExtractErr Unit)
  | 0, _, _, _ => none
  | Nat.succ _, fs, _, [] => some (fs, .ok ())
  | Nat.succ n, fs, outDir, nm :: rest =>
    let nestPath := outDir ++ splitSlash nm
    if fsHas fs nestPath then
      match extract mountOk n fs nestPath (outDir ++ ["nested"]) with
      | none => none
      | some (fs1, .error e) => some (fs1, .error e)
      | some (fs1, .ok _) =>
        if fsHas fs1 nestPath then
          extract_zip_nested mountOk n (fsDelete fs1 nestPath) outDir rest
        else some (fs1, .error .fileNotFoundError)
    else extract_zip_nested mountOk n fs outDir rest

end

/-! ## Projections used by concrete evaluations (they discard `Content`,
which deliberately has no decidable equality) -/

/-- Outcome view of a run, with the filesystem dropped. -/
inductive RunView where
  | outOfFuel
  | failed (e : ExtractErr)
  | okManifest (m : Manifest)
  | okDelegated (format : String)
  deriving DecidableEq, Repr

def runView (r : Option (FS × Except ExtractErr ExtractResult)) : RunView :=
  match r with
  | none => .outOfFuel
  | some (_, .error e) => .failed e
  | some (_, .ok (.manifest m)) => .okManifest m
  | some (_, .ok (.delegated f)) => .okDelegated f

/-- Filesystem after a run (the initial one is never `[]` in our uses). -/
def runFS (r : Option (FS × Except ExtractErr ExtractResult)) : FS :=
  match r with
  | none => []
  | some (fs, _) => fs


/-! ## Filesystem lemmas -/

theorem fsLookup_fsWrite_self (fs : FS) (p : FilePath') (c : Content) :
    fsLookup (fsWrite fs p c) p = some c := by
  induction fs with
  | nil => simp [fsWrite, fsLookup]
  | cons e rest ih =>
    by_cases h : e.1 = p
    · simp [fsWrite, fsLookup, h]
    · simp [fsWrite, fsLookup, h, ih]

theorem fsLookup_fsWrite_ne (fs : FS) (p q : FilePath') (c : Content) (h : q ≠ p) :
    fsLookup (fsWrite fs q c) p = fsLookup fs p := by
  induction fs with
  | nil => simp [fsWrite, fsLookup, h]
  | cons e rest ih =>
    by_cases he : e.1 = q
    · simp [fsWrite, fsLookup, he, h]
    · simp [fsWrite, fsLookup, he, ih]

theorem fsHas_fsWrite_of (fs : FS) (p q : FilePath') (c : Content)
    (h : fsHas fs p = true) : fsHas (fsWrite fs q c) p = true := by
  by_cases hq : q = p
  · subst hq; simp [fsHas, fsLookup_fsWrite_self]
  · rwa [fsHas, fsLookup_fsWrite_ne fs p q c hq]

theorem fsHas_fsWrite_ne (fs : FS) (p q : FilePath') (c : Content) (h : q ≠ p) :
    fsHas (fsWrite fs q c) p = fsHas fs p := by
  rw [fsHas, fsLookup_fsWrite_ne fs p q c h]; rfl

theorem fsHas_fsDelete_self (fs : FS) (p : FilePath') :
    fsHas (fsDelete fs p) p = false := by
  induction fs with
  | nil => simp [fsDelete, fsHas, fsLookup]
  | cons e rest ih =>
    by_cases h : e.1 = p
    · simpa [fsDelete, h] using ih
    · simpa [fsDelete, fsHas, fsLookup, h] using ih

theorem fsHas_writeEntries_of (entries : List (String × Content)) (fs : FS)
    (d p : FilePath') (h : fsHas fs p = true) :
    fsHas (writeEntries fs d entries) p = true := by
  induction entries generalizing fs with
  | nil => simpa [writeEntries]
  | cons e rest ih =>
    rw [writeEntries, List.foldl_cons]
    exact ih _ (fsHas_fsWrite_of fs p _ e.2 h)

theorem scan_output_snd (fs : FS) (outDir : FilePath') (fmt : String) :
    (scan_output fs outDir fmt).2 =
      fsWrite fs (outDir ++ ["extraction_metadata.json"])
        (.jsonC (scan_output fs outDir fmt).1) := rfl

/-! ## Manifest-builder invariant lemmas -/

theorem scanStep_inv (acc : List String × List String × List String) (r : FilePath')
    (h1 : ∀ x ∈ acc.2.1, x ∈ acc.1) (h2 : ∀ x ∈ acc.2.2, x ∈ acc.1) :
    (∀ x ∈ (scanStep acc r).2.1, x ∈ (scanStep acc r).1) ∧
    (∀ x ∈ (scanStep acc r).2.2, x ∈ (scanStep acc r).1) := by
  unfold scanStep
  dsimp only
  split_ifs with hbp himg <;> constructor <;> intro x hx
  · rcases List.mem_append.mp hx with hx | hx
    · exact List.mem_append.mpr (Or.inl (h1 x hx))
    · exact List.mem_append.mpr (Or.inr hx)
  · exact List.mem_append.mpr (Or.inl (h2 x hx))
  · exact List.mem_append.mpr (Or.inl (h1 x hx))
  · rcases List.mem_append.mp hx with hx | hx
    · exact List.mem_append.mpr (Or.inl (h2 x hx))
    · exact List.mem_append.mpr (Or.inr hx)
  · exact List.mem_append.mpr (Or.inl (h1 x hx))
  · exact List.mem_append.mpr (Or.inl (h2 x hx))

theorem scanFold_inv (rels : List FilePath') :
    ∀ (acc : List String × List String × List String),
    (∀ x ∈ acc.2.1, x ∈ acc.1) → (∀ x ∈ acc.2.2, x ∈ acc.1) →
    (∀ x ∈ (rels.foldl scanStep acc).2.1, x ∈ (rels.foldl scanStep acc).1) ∧
    (∀ x ∈ (rels.foldl scanStep acc).2.2, x ∈ (rels.foldl scanStep acc).1) := by
  induction rels with
  | nil => exact fun acc h1 h2 => ⟨h1, h2⟩
  | cons r rest ih =>
    intro acc h1 h2
    rw [List.foldl_cons]
    have hs := scanStep_inv acc r h1 h2
    exact ih (scanStep acc r) hs.1 hs.2

/-! ## Claim theorems -/

/-- C2: for every blob whose 8-byte prefix begins with one of the supported
magic signatures (50 4B 03 04 / 28 B5 2F FD / 04 22 4D 18 / seven ASCII '0'
bytes), `detect_format` returns the corresponding tag (`"zip"` / `"br"` /
`"lz4"` / `"sparse"`), regardless of the blob's filename or extension. -/
theorem c2_magic_precedence (magic : List Byte) (filename : String) :
    (magic.take 4 = zipMagic → detect_format magic filename = "zip") ∧
    (magic.take 4 = brMagic → detect_format magic filename = "br") ∧
    (magic.take 4 = lz4Magic → detect_format magic filename = "lz4") ∧
    (magic.take 7 = sparseMagic → detect_format magic filename = "sparse") := by
  refine ⟨fun h => ?_, fun h => ?_, fun h => ?_, fun h => ?_⟩
  · dsimp only [detect_format]
    rw [if_pos h]
  · dsimp only [detect_format]
    rw [if_neg (by rw [h]; decide), if_pos h]
  · dsimp only [detect_format]
    rw [if_neg (by rw [h]; decide), if_neg (by rw [h]; decide), if_pos h]
  · have h4 : magic.take 4 = [0x30, 0x30, 0x30, 0x30] := by
      have ht : (magic.take 7).take 4 = magic.take 4 := by
        rw [List.take_take]; norm_num
      rw [← ht, h]; decide
    dsimp only [detect_format]
    rw [if_neg (by rw [h4]; decide), if_neg (by rw [h4]; decide),
      if_neg (by rw [h4]; decide), if_pos h]

/-- Witness for C2 at concrete inputs: each magic overrides a misleading or
absent extension. -/
theorem c2_magic_precedence_witness :
    detect_format [0x50, 0x4b, 0x03, 0x04, 9, 9, 9, 9] "renamed.txt" = "zip" ∧
    detect_format [0x28, 0xb5, 0x2f, 0xfd, 1, 2, 3, 4] "renamed.zip" = "br" ∧
    detect_format [0x04, 0x22, 0x4d, 0x18, 5, 6, 7, 8] "noextension" = "lz4" ∧
    detect_format [0x30, 0x30, 0x30, 0x30, 0x30, 0x30, 0x30, 0x30] "vendor.dat" = "sparse" :=
  ⟨(c2_magic_precedence _ _).1 (by decide),
   (c2_magic_precedence _ _).2.1 (by decide),
   (c2_magic_precedence _ _).2.2.1 (by decide),
   (c2_magic_precedence _ _).2.2.2 (by decide)⟩

/-- C3: in every manifest produced by `scan_output`, each path in
`build_props` and each path in `partition_images` also appears in `files`:
the specialized lists are subsets of the full file list. -/
theorem c3_specialized_lists_subset (fs : FS) (outDir : FilePath') (fmt : String) :
    (∀ x ∈ (scan_output fs outDir fmt).1.build_props, x ∈ (scan_output fs outDir fmt).1.files) ∧
    (∀ x ∈ (scan_output fs outDir fmt).1.partition_images, x ∈ (scan_output fs outDir fmt).1.files) := by
  dsimp only [scan_output]
  exact scanFold_inv (walkFiles fs outDir) ([], [], [])
    (by intro x hx; cases hx) (by intro x hx; cases hx)

def c3fs : FS :=
  [(["o", "sys", "build.prop"], .rawC []), (["o", "boot.img"], .rawC [2])]

/-- Witness for C3 on a concrete tree holding a property file and a
partition image. -/
theorem c3_specialized_lists_subset_witness :
    "sys/build.prop" ∈ (scan_output c3fs ["o"] "zip").1.files ∧
    "boot.img" ∈ (scan_output c3fs ["o"] "zip").1.files :=
  ⟨(c3_specialized_lists_subset c3fs ["o"] "zip").1 "sys/build.prop" (by decide),
   (c3_specialized_lists_subset c3fs ["o"] "zip").2 "boot.img" (by decide)⟩

/-- C10: classification depends only on the 8-byte prefix returned by
`get_magic_bytes` and the filename: two blobs agreeing on both classify
identically.  (`get_magic_bytes` reads exactly `read(8)`, so nothing beyond
the 8-byte prefix can influence the result, and `detect_format` is a pure
function, hence deterministic.) -/
theorem c10_depends_only_on_magic_and_name (c c' : Content) (nm nm' : String)
    (hm : get_magic_bytes c = get_magic_bytes c') (hn : nm = nm') :
    detect_format (get_magic_bytes c) nm = detect_format (get_magic_bytes c') nm' := by
  rw [hm, hn]

/-- Witness for C10: two blobs that differ beyond the first 8 bytes classify
the same way. -/
theorem c10_depends_only_on_magic_and_name_witness :
    get_magic_bytes (.rawC [1, 2, 3, 4, 5, 6, 7, 8, 9]) =
      get_magic_bytes (.rawC [1, 2, 3, 4, 5, 6, 7, 8, 200]) ∧
    detect_format (get_magic_bytes (.rawC [1, 2, 3, 4, 5, 6, 7, 8, 9])) "blob.bin" =
      detect_format (get_magic_bytes (.rawC [1, 2, 3, 4, 5, 6, 7, 8, 200])) "blob.bin" :=
  ⟨by decide, c10_depends_only_on_magic_and_name _ _ _ _ (by decide) rfl⟩

/-- C9: a blob classified as payload-bundle yields the delegation result
(`{'format': 'payload', 'delegated': True}`), leaves the filesystem
untouched (no files, no manifest written), and returns no manifest. -/
theorem c9_payload_delegates (mountOk : Bool) (n : Nat) (fs : FS)
    (romPath outDir : FilePath') (c : Content)
    (hc : fsLookup fs romPath = some c)
    (hfmt : detect_format (get_magic_bytes c) (lastSeg romPath) = "payload") :
    extract mountOk (n + 1) fs romPath outDir = some (fs, .ok (.delegated "payload")) := by
  simp [extract, hc, hfmt]

def c9fs : FS := [(["payload.bin"], .rawC [0xcd, 0xab])]

/-- Witness for C9: a concrete `payload.bin` input. -/
theorem c9_payload_delegates_witness :
    extract true 1 c9fs ["payload.bin"] ["out"] =
      some (c9fs, .ok (.delegated "payload")) :=
  c9_payload_delegates true 0 c9fs ["payload.bin"] ["out"] (.rawC [0xcd, 0xab])
    rfl (by decide)

/-- C6: a checksum-sidecar input (classified `md5`) whose co-located base
file (the path with the `.md5` suffix stripped) does not exist fails with
the missing-sidecar-target error — raised in the source as
`FileNotFoundError(f"Expected {base_file} alongside {self.rom_path}")` —
and the filesystem is unchanged: nothing is written to the output
directory. -/
theorem c6_md5_missing_base (mountOk : Bool) (n : Nat) (fs : FS)
    (romPath outDir : FilePath') (c : Content)
    (hc : fsLookup fs romPath = some c)
    (hfmt : detect_format (get_magic_bytes c) (lastSeg romPath) = "md5")
    (hbase : fsHas fs (withSuffixEmpty romPath) = false) :
    extract mountOk (n + 1) fs romPath outDir = some (fs, .error .fileNotFoundError) := by
  simp [extract, hc, hfmt, hbase]

def c6fs : FS := [(["dl", "x.tar.md5"], .rawC [0x31])]

/-- Witness for C6: `dl/x.tar.md5` with no `dl/x.tar` beside it. -/
theorem c6_md5_missing_base_witness :
    extract true 1 c6fs ["dl", "x.tar.md5"] ["out"] =
      some (c6fs, .error .fileNotFoundError) :=
  c6_md5_missing_base true 0 c6fs ["dl", "x.tar.md5"] ["out"] (.rawC [0x31])
    rfl (by decide) (by decide)

/-! ## C1: recursion depth -/

/-- A self-nesting input: a checksum sidecar named `.md5`.  Its name has no
pathlib suffix, so `with_suffix('')` leaves the path unchanged and
`_extract_md5` re-extracts the very same blob. -/
def c1fs : FS := [([".md5"], .rawC [])]

theorem c1_loop (mountOk : Bool) : ∀ n : Nat,
    extract mountOk n c1fs [".md5"] ["out"] = none := by
  intro n
  induction n with
  | zero => rfl
  | succ k ih => exact ih

/-- Counterexample to C1: on this crafted self-nesting input the pipeline
does not terminate at all — for no recursion allowance does it return any
outcome, so in particular it never terminates by raising a depth-bound
error (the source defines no recursion depth limit and no
RecursionDepthExceeded error; the only stop is the Python interpreter's own
stack overflow). -/
theorem c1_counterexample : ¬ ∃ (n : Nat) (r : FS × Except ExtractErr ExtractResult),
    extract true n c1fs [".md5"] ["out"] = some r := by
  rintro ⟨n, r, hr⟩
  rw [c1_loop true n] at hr
  exact Option.noConfusion hr

/-- C1 amended: the code enforces no maximum recursion depth.  The input
`.md5` is classified as a checksum sidecar that resolves to itself, and the
recursive extraction diverges: at every fuel bound the run is still
unfinished, rather than stopping with a depth-bound error. -/
theorem c1_amended_no_depth_bound :
    detect_format (get_magic_bytes (.rawC [])) ".md5" = "md5" ∧
    withSuffixEmpty [".md5"] = [".md5"] ∧
    ∀ (mountOk : Bool) (n : Nat), extract mountOk n c1fs [".md5"] ["out"] = none :=
  ⟨by decide, by decide, fun mountOk n => c1_loop mountOk n⟩

/-! ## C5: sibling-branch isolation -/

/-- C5 amended: a decode failure in one nested branch is not recorded and
does not let the siblings continue — it propagates immediately out of the
nested-candidate loop of `_extract_zip`: later candidates are not
processed, no manifest is produced, and the filesystem is left exactly as
the failing branch left it. -/
theorem c5_amended_failure_aborts (mountOk : Bool) (n : Nat) (fs fs1 : FS)
    (outDir : FilePath') (nm : String) (rest : List String) (e : ExtractErr)
    (hex : fsHas fs (outDir ++ splitSlash nm) = true)
    (hfail : extract mountOk n fs (outDir ++ splitSlash nm) (outDir ++ ["nested"]) =
      some (fs1, .error e)) :
    extract_zip_nested mountOk (n + 1) fs outDir (nm :: rest) = some (fs1, .error e) := by
  simp [extract_zip_nested, hex, hfail]

/-- The zip of the C5 scenario: two nested candidates, the first of which
(`a.md5` with no co-located base file) fails to decode. -/
def c5fs : FS :=
  [(["r.zip"], .zipC [("a.md5", .rawC []), ("b.tar", .tarC [0x70] [("f.txt", .rawC [])])])]

/-- The filesystem state after `extractall` of the C5 zip, at the entry to
the nested-candidate loop. -/
def c5fs1 : FS :=
  [(["r.zip"], .zipC [("a.md5", .rawC []), ("b.tar", .tarC [0x70] [("f.txt", .rawC [])])]),
   (["out", "a.md5"], .rawC []),
   (["out", "b.tar"], .tarC [0x70] [("f.txt", .rawC [])])]

/-- Witness for the amended C5: in the concrete two-candidate zip, the
failure of the first branch aborts the loop before `b.tar` is processed. -/
theorem c5_amended_failure_aborts_witness :
    extract_zip_nested true 5 c5fs1 ["out"] ["a.md5", "b.tar"] =
      some (c5fs1, .error .fileNotFoundError) :=
  c5_amended_failure_aborts true 4 c5fs1 c5fs1 ["out"] "a.md5" ["b.tar"]
    .fileNotFoundError (by decide) (by rfl)

/-- Counterexample to C5: extracting the concrete zip whose first nested
candidate fails (`a.md5` without a base file) aborts the whole run with the
error: the sibling candidate `b.tar` is never decoded (its member `f.txt`
never appears, the archive itself is still in place and was not exploded),
and no best-effort manifest is produced. -/
theorem c5_counterexample :
    runView (extract true 6 c5fs ["r.zip"] ["out"]) = .failed .fileNotFoundError ∧
    fsHas (runFS (extract true 6 c5fs ["r.zip"] ["out"])) ["out", "nested", "f.txt"] = false ∧
    fsHas (runFS (extract true 6 c5fs ["r.zip"] ["out"])) ["out", "b.tar"] = true ∧
    fsHas (runFS (extract true 6 c5fs ["r.zip"] ["out"])) ["out", "extraction_metadata.json"] = false := by
  exact ⟨by decide, by decide, by decide, by decide⟩

/-! ## C4: zip-in-tar round trip -/

/-- A zip containing a tar containing a single plain file. -/
def c4fs : FS :=
  [(["rom.zip"], .zipC [("inner.tar", .tarC [0x70] [("plain.txt", .rawC [])])])]

/-- Counterexample to C4: decoding the zip-of-tar-of-plain-file does NOT
leave only the plain file, and the manifest does not list exactly the plain
file: the nested run's `_scan_output` writes
`nested/extraction_metadata.json` into the output tree before the outer
scan runs, so the outer manifest lists two files. -/
theorem c4_counterexample :
    runView (extract true 6 c4fs ["rom.zip"] ["out"]) =
      .okManifest { format := "zip", output_dir := ["out"],
                    files := ["nested/plain.txt", "nested/extraction_metadata.json"],
                    directories := ["nested"], build_props := [], partition_images := [] } ∧
    fsHas (runFS (extract true 6 c4fs ["rom.zip"] ["out"])) ["out", "nested", "extraction_metadata.json"] = true ∧
    ["nested/plain.txt", "nested/extraction_metadata.json"] ≠ ["nested/plain.txt"] := by
  exact ⟨by decide, by decide, by decide⟩

/-- C4 amended: decoding the zip-of-tar-of-plain-file yields a final tree
containing the plain file (under the `nested/` subdirectory) together with
the metadata file written by the nested scan; both intermediate archives
are removed (the extracted `inner.tar` is unlinked and the rom archive is
outside the output tree), and the manifest's file list is exactly the plain
file plus that metadata file. -/
theorem c4_amended_round_trip :
    runView (extract true 6 c4fs ["rom.zip"] ["out"]) =
      .okManifest { format := "zip", output_dir := ["out"],
                    files := ["nested/plain.txt", "nested/extraction_metadata.json"],
                    directories := ["nested"], build_props := [], partition_images := [] } ∧
    fsHas (runFS (extract true 6 c4fs ["rom.zip"] ["out"])) ["out", "inner.tar"] = false ∧
    fsHas (runFS (extract true 6 c4fs ["rom.zip"] ["out"])) ["out", "nested", "plain.txt"] = true := by
  exact ⟨by decide, by decide, by decide⟩

/-! ## C8: unchecked mount outcome in sparse-image decoding -/

/-- A sparse image whose contained filesystem holds one file. -/
def c8fs : FS := [(["sp.img"], .sparseC (List.replicate 8 0x30) [("system", .rawC [1])])]

/-- C8 evaluated on the failing input: when the loop mount fails
(`mountOk = false`), `_extract_sparse` still returns a success manifest —
only the converted raw image, none of the image's contents — instead of
raising a PermissionDenied/ToolUnavailable error as the claim requires;
with a successful mount the same input also yields the `system` file.  This
exhibits the silently-empty result the claim (and the spec, which flags
this as a source defect) forbids. -/
theorem c8_mount_unchecked_evaluates :
    runView (extract false 3 c8fs ["sp.img"] ["out"]) =
      .okManifest { format := "sparse", output_dir := ["out"], files := ["sp.raw.img"],
                    directories := [], build_props := [], partition_images := ["sp.raw.img"] } ∧
    fsHas (runFS (extract false 3 c8fs ["sp.img"] ["out"])) ["out", "system"] = false ∧
    runView (extract true 3 c8fs ["sp.img"] ["out"]) =
      .okManifest { format := "sparse", output_dir := ["out"], files := ["sp.raw.img", "system"],
                    directories := [], build_props := [], partition_images := ["sp.raw.img"] } := by
  exact ⟨by decide, by decide, by decide⟩

/-! ## C7: `.tar.br` decoding -/

theorem fsHas_fsWrite_self (fs : FS) (p : FilePath') (c : Content) :
    fsHas (fsWrite fs p c) p = true := by
  rw [fsHas, fsLookup_fsWrite_self]; rfl

theorem detect_format_br_tar_br (h : List Byte)
    (hz : h.take 4 ≠ zipMagic) (hb : h.take 4 ≠ brMagic)
    (hl : h.take 4 ≠ lz4Magic) (hs : h.take 7 ≠ sparseMagic) :
    detect_format (h.take 8) "x.tar.br" = "br" := by
  have t4 : (h.take 8).take 4 = h.take 4 := by rw [List.take_take]; norm_num
  have t7 : (h.take 8).take 7 = h.take 7 := by rw [List.take_take]; norm_num
  dsimp only [detect_format]
  rw [t4, t7, if_neg hz, if_neg hb, if_neg hl, if_neg hs]
  decide

theorem detect_format_tar_x_tar (h : List Byte)
    (hz : h.take 4 ≠ zipMagic) (hb : h.take 4 ≠ brMagic)
    (hl : h.take 4 ≠ lz4Magic) (hs : h.take 7 ≠ sparseMagic) :
    detect_format (h.take 8) "x.tar" = "tar" := by
  have t4 : (h.take 8).take 4 = h.take 4 := by rw [List.take_take]; norm_num
  have t7 : (h.take 8).take 7 = h.take 7 := by rw [List.take_take]; norm_num
  dsimp only [detect_format]
  rw [t4, t7, if_neg hz, if_neg hb, if_neg hl, if_neg hs]
  decide

/-- A `.tar.br` rom whose inner tar itself contains a `.tar` member. -/
def c7fs : FS :=
  [(["x.tar.br"],
    .brC [0x1b] (.tarC [0x70] [("y.tar", .tarC [0x70] [("z.txt", .rawC [])]),
                               ("data.bin", .rawC [1])]))]

/-- Counterexample to C7: on a `.tar.br` file whose inner tar contains a
member `y.tar`, the run classifies the outer file as brotli and removes the
produced `x.tar`, but the tar adapter does not recurse into its members, so
the `.tar` file `y.tar` remains in the final output tree — falsifying "no
.tar file remains in the final output tree". -/
theorem c7_counterexample :
    runView (extract true 6 c7fs ["x.tar.br"] ["out"]) =
      .okManifest { format := "br", output_dir := ["out"],
                    files := ["y.tar", "data.bin", "extraction_metadata.json"],
                    directories := [], build_props := [], partition_images := [] } ∧
    fsHas (runFS (extract true 6 c7fs ["x.tar.br"] ["out"])) ["out", "y.tar"] = true ∧
    strEndsWith "y.tar" ".tar" = true := by
  exact ⟨by decide, by decide, by decide⟩

/-- C7 amended: a file named `x.tar.br` whose leading bytes match no magic
signature is classified as brotli (outer format first); after brotli
decoding, the produced `x.tar` is detected as a nested candidate, decoded
in turn, and removed, so the produced `.tar` file itself does not remain in
the final output tree — but `.tar` members inside the inner tar are not
decoded further and may remain. -/
theorem c7_amended_outer_br_produced_tar_removed
    (h h2 : List Byte) (entries : List (String × Content)) (mountOk : Bool) (n : Nat)
    (hz : h.take 4 ≠ zipMagic) (hb : h.take 4 ≠ brMagic)
    (hl : h.take 4 ≠ lz4Magic) (hs : h.take 7 ≠ sparseMagic)
    (hz2 : h2.take 4 ≠ zipMagic) (hb2 : h2.take 4 ≠ brMagic)
    (hl2 : h2.take 4 ≠ lz4Magic) (hs2 : h2.take 7 ≠ sparseMagic) :
    detect_format (get_magic_bytes (.brC h (.tarC h2 entries))) "x.tar.br" = "br" ∧
    ∃ (fs : FS) (m : Manifest),
      extract mountOk (n + 2) [(["x.tar.br"], .brC h (.tarC h2 entries))]
          ["x.tar.br"] ["out"] = some (fs, .ok (.manifest m)) ∧
      fsHas fs ["out", "x.tar"] = false := by
  have hbr : detect_format (get_magic_bytes (Content.brC h (Content.tarC h2 entries)))
      (lastSeg ["x.tar.br"]) = "br" :=
    detect_format_br_tar_br h hz hb hl hs
  have h0 : fsLookup [(["x.tar.br"], Content.brC h (Content.tarC h2 entries))] ["x.tar.br"] =
      some (Content.brC h (Content.tarC h2 entries)) := rfl
  have hstem : pyStem (lastSeg ["x.tar.br"]) = "x.tar" := by decide
  have hsuf : pySuffix (lastSeg ["out", "x.tar"]) = ".tar" := by decide
  -- the inner extraction of the produced tar
  have htar_lookup : ∀ fs : FS,
      fsLookup (fsWrite fs ["out", "x.tar"] (Content.tarC h2 entries)) ["out", "x.tar"] =
        some (Content.tarC h2 entries) :=
    fun fs => fsLookup_fsWrite_self fs _ _
  have htar_fmt : detect_format (get_magic_bytes (Content.tarC h2 entries))
      (lastSeg ["out", "x.tar"]) = "tar" :=
    detect_format_tar_x_tar h2 hz2 hb2 hl2 hs2
  -- after the inner run, the produced tar is still present
  have hpresent : ∀ fs : FS,
      fsHas ((scan_output (writeEntries
          (fsWrite fs ["out", "x.tar"] (Content.tarC h2 entries)) ["out"] entries)
          ["out"] "tar").2) ["out", "x.tar"] = true := by
    intro fs
    rw [scan_output_snd]
    exact fsHas_fsWrite_of _ _ _ _
      (fsHas_writeEntries_of entries _ _ _ (fsHas_fsWrite_self fs _ _))
  refine ⟨hbr, ?_⟩
  haveI : Nonempty Content := ⟨Content.rawC []⟩
  haveI : Nonempty FS := ⟨[]⟩
  simp [extract, h0, hbr, hstem, hsuf, htar_lookup, htar_fmt, hpresent]
  rw [scan_output_snd]
  rw [fsHas_fsWrite_ne _ _ _ _ (by decide)]
  exact fsHas_fsDelete_self _ _

/-- Witness for the amended C7 at a concrete instance: a brotli-wrapped tar
holding one plain member. -/
theorem c7_amended_outer_br_produced_tar_removed_witness :
    detect_format (get_magic_bytes (.brC [0x1b] (.tarC [0x70] [("y.dat", .rawC [2])])))
      "x.tar.br" = "br" ∧
    ∃ (fs : FS) (m : Manifest),
      extract true 6 [(["x.tar.br"], .brC [0x1b] (.tarC [0x70] [("y.dat", .rawC [2])]))]
          ["x.tar.br"] ["out"] = some (fs, .ok (.manifest m)) ∧
      fsHas fs ["out", "x.tar"] = false :=
  c7_amended_outer_br_produced_tar_removed [0x1b] [0x70] [("y.dat", .rawC [2])] true 4
    (by decide) (by decide) (by decide) (by decide)
    (by decide) (by decide) (by decide) (by decide)
